import Mathlib

/-!
Verification of the validated CRUD record stores of this repository
(`SensorDB` in `Mechatronics.py` and `OrderDB` in `customerDatabase.py`).

The two stores are thin wrappers over one SQLite table each.  We shallowly
embed the state of such a table (its rows together with the AUTOINCREMENT
sequence counter) and translate each store method into a pure Lean function
on that state.  Timestamps obtained from the clock (`datetime.now()` /
`date.today()`) are passed in as an explicit `now`/`today` argument, since
the embedding is pure.
-/

deriving instance DecidableEq for Except

/-- Python's `str.strip()` whitespace set restricted to the ASCII range:
space, tab, newline, carriage return, vertical tab, form feed. -/
def isPyWS (c : Char) : Bool :=
  c = ' ' || c = Char.ofNat 9 || c = Char.ofNat 10 || c = Char.ofNat 13 ||
  c = Char.ofNat 11 || c = Char.ofNat 12

/-- Python's `str.strip()`: remove leading and trailing whitespace. -/
def pyStrip (s : String) : String :=
  String.mk (((s.data.dropWhile isPyWS).reverse.dropWhile isPyWS).reverse)

/-- State of one SQLite table with an `INTEGER PRIMARY KEY AUTOINCREMENT`
column: the rows (id paired with the remaining columns, kept in insertion
order, which for states reachable from `empty` coincides with ascending id
order) and the `sqlite_sequence` counter, i.e. the largest id ever assigned
to this table (0 if none).  With `AUTOINCREMENT`, SQLite guarantees a fresh
id strictly larger than every id ever used, and never reuses ids of deleted
rows; the counter is not advanced by a statement that fails a constraint
check, since the failed statement is rolled back as a unit. -/
structure SqliteTable (α : Type) where
  rows : List (Nat × α)
  seq : Nat
deriving DecidableEq

namespace SqliteTable

/-- A freshly created table (`CREATE TABLE IF NOT EXISTS` on a new file). -/
def empty : SqliteTable α := ⟨[], 0⟩

/-- `INSERT` into an AUTOINCREMENT table: the new row gets id `seq + 1`
and the sequence counter advances; returns `cursor.lastrowid`. -/
def insertRow (t : SqliteTable α) (a : α) : Nat × SqliteTable α :=
  (t.seq + 1, ⟨t.rows ++ [(t.seq + 1, a)], t.seq + 1⟩)

/-- `SELECT * FROM table WHERE id = ?` followed by `fetchone`. -/
def getById (t : SqliteTable α) (i : Nat) : Option α :=
  (t.rows.find? (fun p => p.1 = i)).map Prod.snd

/-- Whether a row with the given id exists (`cursor.rowcount > 0` for a
statement whose `WHERE` clause is `id = ?`). -/
def memId (t : SqliteTable α) (i : Nat) : Bool :=
  t.rows.any (fun p => p.1 = i)

/-- `UPDATE table SET ... WHERE id = ?`: every matching row is rewritten;
the boolean is `cursor.rowcount > 0`.  The sequence counter is untouched. -/
def updateRow (t : SqliteTable α) (i : Nat) (a : α) : Bool × SqliteTable α :=
  if t.memId i then
    (true, ⟨t.rows.map (fun p => if p.1 = i then (i, a) else p), t.seq⟩)
  else
    (false, t)

/-- `DELETE FROM table WHERE id = ?`; the boolean is `cursor.rowcount > 0`.
The sequence counter is untouched, so deleted ids are never handed out
again. -/
def deleteRow (t : SqliteTable α) (i : Nat) : Bool × SqliteTable α :=
  if t.memId i then
    (true, ⟨t.rows.filter (fun p => !(p.1 = i : Bool)), t.seq⟩)
  else
    (false, t)

/-- `SELECT * FROM table ORDER BY id`.  Rows of any state reachable from
`empty` are maintained in strictly ascending id order (each insert appends
a fresh largest id, update keeps ids in place and delete only removes
rows), so the stored list itself is the `ORDER BY id` result; the
well-formedness predicate `WF` below records this invariant. -/
def selectAll (t : SqliteTable α) : List (Nat × α) :=
  t.rows

/-- Every id present in the table is bounded by the sequence counter —
the defining property of `AUTOINCREMENT` (the counter records the largest
id ever assigned). -/
def seqBound (t : SqliteTable α) : Prop :=
  ∀ p ∈ t.rows, p.1 ≤ t.seq

instance (t : SqliteTable α) : Decidable t.seqBound := by
  unfold seqBound; infer_instance

/-- Well-formedness of a table state: ids are strictly increasing along
the row list and bounded by the sequence counter.  This holds for every
state reachable from `empty` by the store's operations. -/
def WF (t : SqliteTable α) : Prop :=
  t.rows.Pairwise (fun p q => p.1 < q.1) ∧ t.seqBound

instance (t : SqliteTable α) : Decidable t.WF := by
  unfold WF; infer_instance

end SqliteTable

/-- The error taxonomy of the spec that is realised by exceptions in the
code: `constraintViolation` is `sqlite3.IntegrityError` raised by a failed
`CHECK` constraint, `emptyExport` is the `ValueError` raised by
`export_to_csv` on an empty table.  "Not found" outcomes are ordinary
boolean/option results, not errors, matching the code. -/
inductive DBError where
  | constraintViolation
  | emptyExport
deriving DecidableEq

namespace Csv

/-!
Python's `csv.writer` with the default dialect (as used by both
`export_to_csv` methods): fields are separated by commas, rows terminated
by CRLF (the files are opened with `newline=""`), and a field is quoted
exactly when it contains the delimiter, the quote character or a line
terminator character (QUOTE_MINIMAL), with embedded quote characters
doubled.  `parse` below is a standard CSV reader for this dialect, used to
state the round-trip property of the export.  Fields are modelled as
`List Char`.
-/

/-- The CSV quote character (ASCII 34). -/
def quoteChar : Char := Char.ofNat 34

/-- QUOTE_MINIMAL: quote a field iff it contains the delimiter, the quote
character, or a line-terminator character. -/
def needsQuote (f : List Char) : Bool :=
  f.any (fun c => c = ',' || c = quoteChar || c = Char.ofNat 13 || c = Char.ofNat 10)

/-- Double every embedded quote character. -/
def escQ : List Char → List Char
  | [] => []
  | c :: cs =>
    if c = quoteChar then quoteChar :: quoteChar :: escQ cs else c :: escQ cs

/-- Render one field, quoting it if needed. -/
def quoteField (f : List Char) : List Char :=
  if needsQuote f then quoteChar :: (escQ f ++ [quoteChar]) else f

/-- Render one row: fields joined by commas (no terminator). -/
def writeRow : List (List Char) → List Char
  | [] => []
  | [f] => quoteField f
  | f :: fs => quoteField f ++ ',' :: writeRow fs

/-- Render a whole file: each row followed by CRLF. -/
def file : List (List (List Char)) → List Char
  | [] => []
  | r :: rs => writeRow r ++ Char.ofNat 13 :: Char.ofNat 10 :: file rs

/-- Read the interior of a quoted field up to its closing quote, undoing
doubled quote characters; returns the field and the remaining input. -/
def parseQuoted : List Char → List Char → List Char × List Char
  | [], acc => (acc.reverse, [])
  | c :: rest, acc =>
    if c = quoteChar then
      match rest with
      | [] => (acc.reverse, [])
      | c2 :: rest2 =>
        if c2 = quoteChar then parseQuoted rest2 (quoteChar :: acc)
        else (acc.reverse, rest)
    else parseQuoted rest (c :: acc)

/-- Read an unquoted field: everything up to (excluding) the next comma or
carriage return. -/
def parseUF : List Char → List Char → List Char × List Char
  | [], acc => (acc.reverse, [])
  | c :: rest, acc =>
    if c = ',' || c = Char.ofNat 13 then (acc.reverse, c :: rest)
    else parseUF rest (c :: acc)

/-- Read one field, quoted or not. -/
def parseField : List Char → List Char × List Char
  | [] => ([], [])
  | c :: rest => if c = quoteChar then parseQuoted rest [] else parseUF (c :: rest) []

/-- Read one row: fields separated by commas, ended by CRLF or the end of
the input.  The fuel bounds the number of fields and only guarantees
termination; `parse` supplies enough of it for any input. -/
def parseRowF : Nat → List Char → List (List Char) × List Char
  | 0, s => ([], s)
  | fuel + 1, s =>
    let fr := parseField s
    match fr.2 with
    | [] => ([fr.1], [])
    | c :: rest2 =>
      if c = ',' then
        let rr := parseRowF fuel rest2
        (fr.1 :: rr.1, rr.2)
      else if c = Char.ofNat 13 then
        match rest2 with
        | [] => ([fr.1], [])
        | c2 :: rest3 =>
          if c2 = Char.ofNat 10 then ([fr.1], rest3) else ([fr.1], rest2)
      else ([fr.1], rest2)

/-- Read all rows of the input. -/
def parseRecsF : Nat → List Char → List (List (List Char))
  | 0, _ => []
  | fuel + 1, s =>
    match s with
    | [] => []
    | _ :: _ =>
      let pr := parseRowF (fuel + 1) s
      pr.1 :: parseRecsF fuel pr.2

/-- Parse a CSV file into its rows of fields. -/
def parse (s : List Char) : List (List (List Char)) :=
  parseRecsF (s.length + 1) s

/-- Text of an INTEGER cell, as `str()` renders a Python int. -/
def renderNat (n : Nat) : List Char := (toString n).data

/-- Text of an INTEGER cell that may be negative. -/
def renderInt (n : Int) : List Char := (toString n).data

/-- Text of a REAL cell.  Python renders the float with `str`; REAL values
are modelled as rationals here and rendered in a fixed `num/den` textual
form.  What matters for the properties below is that the cell is a fixed
textual rendering of the stored value, written and parsed back
unchanged. -/
def renderRat (q : ℚ) : List Char :=
  (toString q.num).data ++ '/' :: (toString q.den).data

end Csv

namespace SensorDB

/-- One row of the `sensor_data` table (columns after `id`), in
table-declaration order. -/
structure SensorReading where
  sensor_name : String
  value : ℚ
  unit : String
  timestamp : String
  status : String
deriving DecidableEq

/-- `SensorDB.add_reading(sensor_name, value, unit, timestamp=None,
status="Normal")`.  `now` is the clock value used when `timestamp` is
absent.  `sensor_name`, `unit` and `status` are stripped; `timestamp` is
inserted verbatim.  Returns `cursor.lastrowid` and the new table state;
the insert never fails (the table declares no CHECK constraints). -/
def add_reading (now : String) (db : SqliteTable SensorReading)
    (sensor_name : String) (value : ℚ) (unit : String)
    (timestamp : Option String) (status : String) :
    Nat × SqliteTable SensorReading :=
  db.insertRow
    ⟨pyStrip sensor_name, value, pyStrip unit, timestamp.getD now, pyStrip status⟩

/-- `add_reading` called without the `status` argument: Python then applies
the declared default value `"Normal"` from the method signature. -/
def add_reading_defaults (now : String) (db : SqliteTable SensorReading)
    (sensor_name : String) (value : ℚ) (unit : String)
    (timestamp : Option String) :
    Nat × SqliteTable SensorReading :=
  add_reading now db sensor_name value unit timestamp "Normal"

/-- `SensorDB.get_all_readings()`. -/
def get_all_readings (db : SqliteTable SensorReading) :
    List (Nat × SensorReading) :=
  db.selectAll

/-- `SensorDB.get_reading(reading_id)`. -/
def get_reading (db : SqliteTable SensorReading) (reading_id : Nat) :
    Option SensorReading :=
  db.getById reading_id

/-- `SensorDB.update_reading`: rewrites every column of the addressed row
to the supplied values, stripping all four text arguments (including
`timestamp`); returns `cursor.rowcount > 0`. -/
def update_reading (db : SqliteTable SensorReading) (reading_id : Nat)
    (sensor_name : String) (value : ℚ) (unit timestamp status : String) :
    Bool × SqliteTable SensorReading :=
  db.updateRow reading_id
    ⟨pyStrip sensor_name, value, pyStrip unit, pyStrip timestamp, pyStrip status⟩

/-- `SensorDB.delete_reading(reading_id)`. -/
def delete_reading (db : SqliteTable SensorReading) (reading_id : Nat) :
    Bool × SqliteTable SensorReading :=
  db.deleteRow reading_id

/-- The header row `export_to_csv` writes: the column names in
table-declaration order, `id` included. -/
def csvHeader : List (List Char) :=
  ["id".data, "sensor_name".data, "value".data, "unit".data,
   "timestamp".data, "status".data]

/-- The cells `csv.writer` writes for one record, in column order. -/
def csvRow (p : Nat × SensorReading) : List (List Char) :=
  [Csv.renderNat p.1, p.2.sensor_name.data, Csv.renderRat p.2.value,
   p.2.unit.data, p.2.timestamp.data, p.2.status.data]

/-- The full text `export_to_csv` produces for a non-empty table: header
row, then one row per record of `get_all_readings` (ascending id). -/
def exportText (db : SqliteTable SensorReading) : List Char :=
  Csv.file (csvHeader :: (get_all_readings db).map csvRow)

/-- `SensorDB.export_to_csv`: on an empty table it raises `ValueError`
("No sensor data to export."); otherwise it writes header plus data rows.
The emptiness test precedes `open(csv_path, ...)`. -/
def export_to_csv (db : SqliteTable SensorReading) :
    Except DBError (List Char) :=
  if (get_all_readings db).isEmpty then Except.error DBError.emptyExport
  else Except.ok (exportText db)

/-- Effect of one `export_to_csv` call on the destination file (`none` =
file absent).  On success the file is created or overwritten with the
produced text; on the empty-table `ValueError` the exception is raised
before `open`, so the destination is untouched. -/
def export_run (db : SqliteTable SensorReading) (dest : Option (List Char)) :
    Option (List Char) :=
  match export_to_csv db with
  | Except.ok content => some content
  | Except.error _ => dest

/-- One mutating call of the `SensorDB` API, with the clock value the call
would observe baked into the `add` constructor. -/
inductive Op where
  | add (now sensor_name : String) (value : ℚ) (unit : String)
      (timestamp : Option String) (status : String)
  | update (id : Nat) (sensor_name : String) (value : ℚ)
      (unit timestamp status : String)
  | delete (id : Nat)

/-- Apply one call: the first component is the id the call assigned, if it
was an `add`. -/
def applyOp (db : SqliteTable SensorReading) :
    Op → Option Nat × SqliteTable SensorReading
  | Op.add now n v u t s =>
    let r := add_reading now db n v u t s
    (some r.1, r.2)
  | Op.update i n v u t s => (none, (update_reading db i n v u t s).2)
  | Op.delete i => (none, (delete_reading db i).2)

/-- The ids assigned by a sequence of calls, in call order. -/
def runIds (db : SqliteTable SensorReading) : List Op → List Nat
  | [] => []
  | op :: ops =>
    let st := applyOp db op
    st.1.toList ++ runIds st.2 ops

end SensorDB

namespace OrderDB

/-- One row of the `orders` table (columns after `id`), in
table-declaration order. -/
structure OrderRow where
  customer_name : String
  product : String
  quantity : Int
  unit_price : ℚ
  order_date : String
  status : String
deriving DecidableEq

/-- The two `CHECK` constraints declared on the `orders` table:
`quantity > 0` and `unit_price >= 0`.  SQLite evaluates them on every
inserted or updated row and aborts the statement with an
`IntegrityError` when one fails. -/
def checksOk (o : OrderRow) : Bool :=
  (0 < o.quantity : Bool) && (0 ≤ o.unit_price : Bool)

/-- `OrderDB.add_order(customer_name, product, quantity, unit_price,
order_date=None, status="pending")`.  `today` is the clock value used when
`order_date` is absent.  `customer_name`, `product` and `status` are
stripped; `order_date` is inserted verbatim.  A row failing a `CHECK`
constraint raises `IntegrityError` and the statement is rolled back: the
table (including the sequence counter) is unchanged.  Returns the pair of
the outcome (`cursor.lastrowid` on success) and the table state after the
call. -/
def add_order (today : String) (db : SqliteTable OrderRow)
    (customer_name product : String) (quantity : Int) (unit_price : ℚ)
    (order_date : Option String) (status : String) :
    Except DBError Nat × SqliteTable OrderRow :=
  let o : OrderRow :=
    ⟨pyStrip customer_name, pyStrip product, quantity, unit_price,
      order_date.getD today, pyStrip status⟩
  if checksOk o then
    let r := db.insertRow o
    (Except.ok r.1, r.2)
  else
    (Except.error DBError.constraintViolation, db)

/-- `add_order` called without the `status` argument: Python then applies
the declared default value `"pending"` from the method signature. -/
def add_order_defaults (today : String) (db : SqliteTable OrderRow)
    (customer_name product : String) (quantity : Int) (unit_price : ℚ)
    (order_date : Option String) :
    Except DBError Nat × SqliteTable OrderRow :=
  add_order today db customer_name product quantity unit_price order_date "pending"

/-- `OrderDB.get_all_orders()`. -/
def get_all_orders (db : SqliteTable OrderRow) : List (Nat × OrderRow) :=
  db.selectAll

/-- `OrderDB.get_order(order_id)`. -/
def get_order (db : SqliteTable OrderRow) (order_id : Nat) : Option OrderRow :=
  db.getById order_id

/-- `OrderDB.update_order`: rewrites every column of the addressed row,
stripping all four text arguments (including `order_date`); returns
`cursor.rowcount > 0`.  The `CHECK` constraints are evaluated only on rows
actually rewritten, so an update whose `WHERE id = ?` clause matches no row
returns `False` without raising, whatever the supplied values. -/
def update_order (db : SqliteTable OrderRow) (order_id : Nat)
    (customer_name product : String) (quantity : Int) (unit_price : ℚ)
    (order_date status : String) :
    Except DBError Bool × SqliteTable OrderRow :=
  let o : OrderRow :=
    ⟨pyStrip customer_name, pyStrip product, quantity, unit_price,
      pyStrip order_date, pyStrip status⟩
  if db.memId order_id then
    if checksOk o then
      let r := db.updateRow order_id o
      (Except.ok r.1, r.2)
    else
      (Except.error DBError.constraintViolation, db)
  else
    (Except.ok false, db)

/-- `OrderDB.delete_order(order_id)`. -/
def delete_order (db : SqliteTable OrderRow) (order_id : Nat) :
    Bool × SqliteTable OrderRow :=
  db.deleteRow order_id

/-- The header row `export_to_csv` writes: the column names in
table-declaration order, `id` included. -/
def csvHeader : List (List Char) :=
  ["id".data, "customer_name".data, "product".data, "quantity".data,
   "unit_price".data, "order_date".data, "status".data]

/-- The cells `csv.writer` writes for one record, in column order. -/
def csvRow (p : Nat × OrderRow) : List (List Char) :=
  [Csv.renderNat p.1, p.2.customer_name.data, p.2.product.data,
   Csv.renderInt p.2.quantity, Csv.renderRat p.2.unit_price,
   p.2.order_date.data, p.2.status.data]

/-- The full text `export_to_csv` produces for a non-empty table: header
row, then one row per record of `get_all_orders` (ascending id). -/
def exportText (db : SqliteTable OrderRow) : List Char :=
  Csv.file (csvHeader :: (get_all_orders db).map csvRow)

/-- `OrderDB.export_to_csv`: on an empty table it raises `ValueError`
("No orders to export."); otherwise it writes header plus data rows.  The
emptiness test precedes `open(csv_path, ...)`. -/
def export_to_csv (db : SqliteTable OrderRow) : Except DBError (List Char) :=
  if (get_all_orders db).isEmpty then Except.error DBError.emptyExport
  else Except.ok (exportText db)

/-- Effect of one `export_to_csv` call on the destination file (`none` =
file absent).  On success the file is created or overwritten with the
produced text; on the empty-table `ValueError` the exception is raised
before `open`, so the destination is untouched. -/
def export_run (db : SqliteTable OrderRow) (dest : Option (List Char)) :
    Option (List Char) :=
  match export_to_csv db with
  | Except.ok content => some content
  | Except.error _ => dest

/-- One mutating call of the `OrderDB` API, with the clock value the call
would observe baked into the `add` constructor. -/
inductive Op where
  | add (today customer_name product : String) (quantity : Int)
      (unit_price : ℚ) (order_date : Option String) (status : String)
  | update (id : Nat) (customer_name product : String) (quantity : Int)
      (unit_price : ℚ) (order_date status : String)
  | delete (id : Nat)

/-- Apply one call: the first component is the id the call assigned, if it
was an `add` that passed the constraint checks. -/
def applyOp (db : SqliteTable OrderRow) :
    Op → Option Nat × SqliteTable OrderRow
  | Op.add today c p q pr d s =>
    match add_order today db c p q pr d s with
    | (Except.ok i, db2) => (some i, db2)
    | (Except.error _, db2) => (none, db2)
  | Op.update i c p q pr d s => (none, (update_order db i c p q pr d s).2)
  | Op.delete i => (none, (delete_order db i).2)

/-- The ids assigned by a sequence of calls, in call order. -/
def runIds (db : SqliteTable OrderRow) : List Op → List Nat
  | [] => []
  | op :: ops =>
    let st := applyOp db op
    st.1.toList ++ runIds st.2 ops

end OrderDB

namespace SqliteTable

theorem seq_insertRow (t : SqliteTable α) (a : α) :
    ((t.insertRow a).2).seq = t.seq + 1 := rfl

theorem fst_insertRow (t : SqliteTable α) (a : α) :
    (t.insertRow a).1 = t.seq + 1 := rfl

theorem seq_updateRow (t : SqliteTable α) (i : Nat) (a : α) :
    ((t.updateRow i a).2).seq = t.seq := by
  unfold updateRow; split <;> rfl

theorem seq_deleteRow (t : SqliteTable α) (i : Nat) :
    ((t.deleteRow i).2).seq = t.seq := by
  unfold deleteRow; split <;> rfl

/-- Looking up the id just assigned by an insert finds the inserted row,
provided all pre-existing ids are bounded by the sequence counter. -/
theorem getById_insertRow_fresh (t : SqliteTable α) (a : α) (h : t.seqBound) :
    (t.insertRow a).2.getById (t.seq + 1) = some a := by
  unfold insertRow getById
  simp only [List.find?_append]
  have h1 : t.rows.find? (fun p => p.1 = t.seq + 1) = none := by
    rw [List.find?_eq_none]
    intro p hp
    have := h p hp
    simp only [decide_eq_true_eq]
    omega
  rw [h1]
  simp [List.find?]

theorem memId_eq_false_getById (t : SqliteTable α) (i : Nat)
    (h : t.memId i = false) : t.getById i = none := by
  unfold getById
  rw [List.find?_eq_none.mpr]
  · rfl
  · intro p hp
    unfold memId at h
    rw [List.any_eq_false] at h
    exact h p hp

theorem updateRow_fst (t : SqliteTable α) (i : Nat) (a : α) :
    (t.updateRow i a).1 = t.memId i := by
  unfold updateRow; split <;> simp_all

theorem updateRow_not_mem (t : SqliteTable α) (i : Nat) (a : α)
    (h : t.memId i = false) : t.updateRow i a = (false, t) := by
  simp [updateRow, h]

theorem find?_map_update (l : List (Nat × α)) (i : Nat) (a : α)
    (h : l.any (fun p => p.1 = i) = true) :
    (l.map (fun p => if p.1 = i then (i, a) else p)).find? (fun p => p.1 = i)
      = some (i, a) := by
  induction l with
  | nil => simp at h
  | cons hd tl ih =>
    by_cases hh : hd.1 = i
    · simp [hh]
    · simp only [List.map_cons, if_neg hh]
      rw [List.find?_cons_of_neg _ (by simp [hh])]
      apply ih
      simpa [hh] using h

/-- Looking up an updated id returns exactly the record supplied to the
update, whatever was stored before. -/
theorem getById_updateRow_self (t : SqliteTable α) (i : Nat) (a : α)
    (h : t.memId i = true) :
    (t.updateRow i a).2.getById i = some a := by
  unfold updateRow
  rw [if_pos h]
  unfold getById
  simp only
  rw [find?_map_update t.rows i a h]
  rfl

theorem deleteRow_fst (t : SqliteTable α) (i : Nat) :
    (t.deleteRow i).1 = t.memId i := by
  unfold deleteRow; split <;> simp_all

theorem deleteRow_not_mem (t : SqliteTable α) (i : Nat)
    (h : t.memId i = false) : t.deleteRow i = (false, t) := by
  simp [deleteRow, h]

/-- After a delete, no row with the deleted id remains. -/
theorem memId_deleteRow_self (t : SqliteTable α) (i : Nat) :
    (t.deleteRow i).2.memId i = false := by
  unfold deleteRow
  by_cases h : t.memId i
  · rw [if_pos h]
    simp only [memId, List.any_eq_false]
    intro p hp
    have hm := List.mem_filter.mp hp
    simp only [Bool.not_eq_eq_eq_not, Bool.not_true, decide_eq_false_iff_not] at hm
    simp [hm.2]
  · rw [if_neg h]
    simpa using h

theorem getById_deleteRow_self (t : SqliteTable α) (i : Nat) :
    (t.deleteRow i).2.getById i = none :=
  memId_eq_false_getById _ _ (memId_deleteRow_self t i)

end SqliteTable

/-- C1, counterexample: an `update_order` call with `quantity = 0` (so
`quantity ≤ 0`) addressing an id with no row (empty table, id 1) returns
the not-found result `ok false` instead of failing with a
`ConstraintViolation`: SQLite evaluates `CHECK` constraints only on rows
actually updated.  The table is left unchanged, but the claim that every
such update call fails with a `ConstraintViolation` is false. -/
theorem c1_counterexample :
    OrderDB.update_order SqliteTable.empty 1 "Ada" "Widget" 0 1 "2024-01-05" "ok"
      = (Except.ok false, SqliteTable.empty) ∧
    (OrderDB.update_order SqliteTable.empty 1 "Ada" "Widget" 0 1 "2024-01-05" "ok").1
      ≠ Except.error DBError.constraintViolation := by
  constructor
  · decide
  · decide

/-- C1, amended: an `add_order` with `quantity ≤ 0` or `unit_price < 0`
always fails with a `ConstraintViolation` and leaves the table (row list
and sequence counter) unchanged; an `update_order` with such values fails
the same way, the table unchanged, whenever a row with the addressed id
exists; when no row with the id exists the update instead reports
not-found (`ok false`) without raising, the table again unchanged. -/
theorem c1_numeric_constraint_rejection
    (db : SqliteTable OrderDB.OrderRow) (today c p : String) (q : Int)
    (pr : ℚ) (d : Option String) (s : String) (i : Nat) (c2 p2 d2 s2 : String)
    (hbad : q ≤ 0 ∨ pr < 0) :
    OrderDB.add_order today db c p q pr d s
      = (Except.error DBError.constraintViolation, db) ∧
    (db.memId i = true →
      OrderDB.update_order db i c2 p2 q pr d2 s2
        = (Except.error DBError.constraintViolation, db)) ∧
    (db.memId i = false →
      OrderDB.update_order db i c2 p2 q pr d2 s2 = (Except.ok false, db)) := by
  have hck : ∀ cn pp od st, OrderDB.checksOk ⟨cn, pp, q, pr, od, st⟩ = false := by
    intro cn pp od st
    rcases hbad with h | h
    · simp [OrderDB.checksOk, show ¬ (0 < q) by omega]
    · simp [OrderDB.checksOk, not_le.mpr h]
  refine ⟨?_, ?_, ?_⟩
  · simp [OrderDB.add_order, hck]
  · intro hmem
    simp [OrderDB.update_order, hck, hmem]
  · intro hmem
    simp [OrderDB.update_order, hck, hmem]

/-- Witness for `c1_numeric_constraint_rejection` at a concrete input. -/
theorem c1_numeric_constraint_rejection_witness :
    ((0 : Int) ≤ 0 ∨ (1 : ℚ) < 0) ∧
    OrderDB.add_order "2024-01-05" SqliteTable.empty "Ada" "W" 0 1 none "ok"
      = (Except.error DBError.constraintViolation, SqliteTable.empty) :=
  ⟨Or.inl (by decide),
   (c1_numeric_constraint_rejection SqliteTable.empty "2024-01-05" "Ada" "W" 0 1
      none "ok" 1 "x" "y" "z" "w" (Or.inl (by decide))).1⟩

/-- C3, counterexample: `add_order` with a customer name `"   "` that is
empty after trimming succeeds (id 1 assigned), and the empty string is
persisted and returned by `get_order`; no `ConstraintViolation` occurs, so
the store does not re-validate the non-empty-text constraints. -/
theorem c3_counterexample :
    OrderDB.add_order "2024-01-05" SqliteTable.empty "   " "Widget" 2 3 none "ok"
      = (Except.ok 1,
          ⟨[(1, ⟨"", "Widget", 2, 3, "2024-01-05", "ok"⟩)], 1⟩) ∧
    OrderDB.get_order
        (OrderDB.add_order "2024-01-05" SqliteTable.empty "   " "Widget" 2 3 none "ok").2 1
      = some ⟨"", "Widget", 2, 3, "2024-01-05", "ok"⟩ := by
  constructor
  · decide
  · decide

/-- C3, amended: the store performs no non-empty-after-trim validation on
text fields: an add or update whose text arguments trim to the empty
string succeeds — subject only to the numeric `CHECK` constraints of the
orders table — and persists empty strings. -/
theorem c3_empty_text_accepted
    (db1 : SqliteTable SensorDB.SensorReading) (db2 : SqliteTable OrderDB.OrderRow)
    (now today t : String) (v : ℚ) (q : Int) (pr : ℚ) (i : Nat)
    (ht : pyStrip t = "") (hq : 0 < q) (hp : 0 ≤ pr) :
    SensorDB.add_reading now db1 t v t none t
      = db1.insertRow ⟨"", v, "", now, ""⟩ ∧
    OrderDB.add_order today db2 t t q pr none t
      = (Except.ok (db2.seq + 1), (db2.insertRow ⟨"", "", q, pr, today, ""⟩).2) ∧
    (db2.memId i = true →
      OrderDB.update_order db2 i t t q pr t t
        = (Except.ok true, (db2.updateRow i ⟨"", "", q, pr, "", ""⟩).2)) := by
  have hck : ∀ cn pp od st, OrderDB.checksOk ⟨cn, pp, q, pr, od, st⟩ = true := by
    intro cn pp od st
    simp [OrderDB.checksOk, hq, hp]
  refine ⟨?_, ?_, ?_⟩
  · simp [SensorDB.add_reading, ht]
  · simp [OrderDB.add_order, ht, hck, SqliteTable.fst_insertRow]
  · intro hmem
    simp [OrderDB.update_order, ht, hck, hmem, SqliteTable.updateRow_fst]

/-- Witness for `c3_empty_text_accepted` at a concrete input. -/
theorem c3_empty_text_accepted_witness :
    (pyStrip " " = "" ∧ (0 : Int) < 1 ∧ (0 : ℚ) ≤ 2) ∧
    SensorDB.add_reading "T" SqliteTable.empty " " 7 " " none " "
      = SqliteTable.empty.insertRow ⟨"", 7, "", "T", ""⟩ :=
  ⟨⟨by decide, by decide, by decide⟩,
   (c3_empty_text_accepted SqliteTable.empty SqliteTable.empty "T" "D" " " 7 1 2 1
      (by decide) (by decide) (by decide)).1⟩

/-- C5 (confirmed): exporting a table with zero records fails with
`EmptyExport`, and the destination file — whether absent (`none`) or
holding content from an earlier run — is untouched: the exception is
raised before the file is opened, so no header-only file is created and
nothing is overwritten. -/
theorem c5_empty_export_rejected
    (db1 : SqliteTable SensorDB.SensorReading) (db2 : SqliteTable OrderDB.OrderRow)
    (f1 f2 : Option (List Char))
    (h1 : SensorDB.get_all_readings db1 = [])
    (h2 : OrderDB.get_all_orders db2 = []) :
    SensorDB.export_to_csv db1 = Except.error DBError.emptyExport ∧
    SensorDB.export_run db1 f1 = f1 ∧
    OrderDB.export_to_csv db2 = Except.error DBError.emptyExport ∧
    OrderDB.export_run db2 f2 = f2 := by
  have e1 : SensorDB.export_to_csv db1 = Except.error DBError.emptyExport := by
    simp [SensorDB.export_to_csv, h1]
  have e2 : OrderDB.export_to_csv db2 = Except.error DBError.emptyExport := by
    simp [OrderDB.export_to_csv, h2]
  exact ⟨e1, by simp [SensorDB.export_run, e1], e2, by simp [OrderDB.export_run, e2]⟩

/-- Witness for `c5_empty_export_rejected` at a concrete input. -/
theorem c5_empty_export_rejected_witness :
    (SensorDB.get_all_readings SqliteTable.empty = [] ∧
     OrderDB.get_all_orders SqliteTable.empty = []) ∧
    SensorDB.export_run SqliteTable.empty (some ['x']) = some ['x'] :=
  ⟨⟨rfl, rfl⟩,
   (c5_empty_export_rejected SqliteTable.empty SqliteTable.empty (some ['x']) none
      rfl rfl).2.1⟩

/-- C8 (confirmed): deleting an existing id returns success and removes
the record permanently (a subsequent lookup is not-found); deleting the
same id a second time returns not-found and leaves the table exactly as it
was after the first delete; no call raises (both calls are total and
return their boolean outcome). -/
theorem c8_delete_idempotent
    (db1 : SqliteTable SensorDB.SensorReading) (db2 : SqliteTable OrderDB.OrderRow)
    (i j : Nat) (h1 : db1.memId i = true) (h2 : db2.memId j = true) :
    ((SensorDB.delete_reading db1 i).1 = true ∧
     SensorDB.get_reading (SensorDB.delete_reading db1 i).2 i = none ∧
     SensorDB.delete_reading (SensorDB.delete_reading db1 i).2 i
       = (false, (SensorDB.delete_reading db1 i).2)) ∧
    ((OrderDB.delete_order db2 j).1 = true ∧
     OrderDB.get_order (OrderDB.delete_order db2 j).2 j = none ∧
     OrderDB.delete_order (OrderDB.delete_order db2 j).2 j
       = (false, (OrderDB.delete_order db2 j).2)) := by
  refine ⟨⟨?_, ?_, ?_⟩, ?_, ?_, ?_⟩
  · exact (SqliteTable.deleteRow_fst db1 i).trans h1
  · exact SqliteTable.getById_deleteRow_self db1 i
  · exact SqliteTable.deleteRow_not_mem _ _ (SqliteTable.memId_deleteRow_self db1 i)
  · exact (SqliteTable.deleteRow_fst db2 j).trans h2
  · exact SqliteTable.getById_deleteRow_self db2 j
  · exact SqliteTable.deleteRow_not_mem _ _ (SqliteTable.memId_deleteRow_self db2 j)

/-- Witness for `c8_delete_idempotent` at a concrete input. -/
theorem c8_delete_idempotent_witness :
    ((⟨[(1, ⟨"a", 1, "u", "t", "s"⟩)], 1⟩ :
        SqliteTable SensorDB.SensorReading).memId 1 = true ∧
     (⟨[(2, ⟨"c", "p", 1, 1, "d", "s"⟩)], 2⟩ :
        SqliteTable OrderDB.OrderRow).memId 2 = true) ∧
    SensorDB.get_reading
        (SensorDB.delete_reading ⟨[(1, ⟨"a", 1, "u", "t", "s"⟩)], 1⟩ 1).2 1 = none :=
  ⟨⟨by decide, by decide⟩,
   ((c8_delete_idempotent ⟨[(1, ⟨"a", 1, "u", "t", "s"⟩)], 1⟩
      ⟨[(2, ⟨"c", "p", 1, 1, "d", "s"⟩)], 2⟩ 1 2 (by decide) (by decide)).1).2.1⟩

/-- C4 (confirmed): `update` rewrites every field of the addressed record
to the supplied values with no merging of prior values — the resulting
record is built from the call's arguments alone, and for pre-validated
inputs (text already trimmed, numeric constraints met) it is exactly the
supplied values — and returns success precisely when a row with the id
existed; a call addressing a non-existent id returns the not-found result
without raising, leaving the table unchanged. -/
theorem c4_update_full_rewrite
    (db1 : SqliteTable SensorDB.SensorReading) (db2 : SqliteTable OrderDB.OrderRow)
    (i : Nat) (n u t s c p d s2 : String) (v : ℚ) (q : Int) (pr : ℚ)
    (hn : pyStrip n = n) (hu : pyStrip u = u) (ht : pyStrip t = t)
    (hs : pyStrip s = s) (hc : pyStrip c = c) (hp2 : pyStrip p = p)
    (hd : pyStrip d = d) (hs2 : pyStrip s2 = s2)
    (hq : 0 < q) (hpr : 0 ≤ pr) :
    (db1.memId i = true →
      (SensorDB.update_reading db1 i n v u t s).1 = true ∧
      SensorDB.get_reading (SensorDB.update_reading db1 i n v u t s).2 i
        = some ⟨n, v, u, t, s⟩) ∧
    (db1.memId i = false →
      SensorDB.update_reading db1 i n v u t s = (false, db1)) ∧
    (db2.memId i = true →
      (OrderDB.update_order db2 i c p q pr d s2).1 = Except.ok true ∧
      OrderDB.get_order (OrderDB.update_order db2 i c p q pr d s2).2 i
        = some ⟨c, p, q, pr, d, s2⟩) ∧
    (db2.memId i = false →
      OrderDB.update_order db2 i c p q pr d s2 = (Except.ok false, db2)) := by
  have hck : OrderDB.checksOk ⟨c, p, q, pr, d, s2⟩ = true := by
    simp [OrderDB.checksOk, hq, hpr]
  refine ⟨?_, ?_, ?_, ?_⟩
  · intro hmem
    constructor
    · simp only [SensorDB.update_reading, hn, hu, ht, hs]
      exact (SqliteTable.updateRow_fst db1 i _).trans hmem
    · simp only [SensorDB.update_reading, hn, hu, ht, hs]
      exact SqliteTable.getById_updateRow_self db1 i _ hmem
  · intro hmem
    simp only [SensorDB.update_reading, hn, hu, ht, hs]
    exact SqliteTable.updateRow_not_mem db1 i _ hmem
  · intro hmem
    constructor
    · simp only [OrderDB.update_order, hc, hp2, hd, hs2, hck, hmem, if_true]
      rw [SqliteTable.updateRow_fst, hmem]
    · simp only [OrderDB.update_order, hc, hp2, hd, hs2, hck, hmem, if_true]
      exact SqliteTable.getById_updateRow_self db2 i _ hmem
  · intro hmem
    simp [OrderDB.update_order, hmem]

/-- Witness for `c4_update_full_rewrite` at a concrete input. -/
theorem c4_update_full_rewrite_witness :
    (pyStrip "New" = "New" ∧ (0 : Int) < 2 ∧ (0 : ℚ) ≤ 5 ∧
     (⟨[(1, ⟨"a", 1, "u", "t", "s"⟩)], 1⟩ :
        SqliteTable SensorDB.SensorReading).memId 1 = true) ∧
    SensorDB.get_reading
        (SensorDB.update_reading ⟨[(1, ⟨"a", 1, "u", "t", "s"⟩)], 1⟩ 1
          "New" 2 "C" "T" "Ok").2 1
      = some ⟨"New", 2, "C", "T", "Ok"⟩ :=
  ⟨⟨by decide, by decide, by decide, by decide⟩,
   ((c4_update_full_rewrite ⟨[(1, ⟨"a", 1, "u", "t", "s"⟩)], 1⟩ SqliteTable.empty 1
      "New" "C" "T" "Ok" "Cu" "P" "D" "S" 2 2 5
      (by decide) (by decide) (by decide) (by decide) (by decide) (by decide)
      (by decide) (by decide) (by decide) (by decide)).1 (by decide)).2⟩

/-- C7, counterexample: `add_reading` with an explicitly supplied
timestamp stores it verbatim, without trimming — the stored value keeps
its surrounding whitespace, contradicting the claim that every text field
(timestamp included) is stored trimmed by both add and update. -/
theorem c7_counterexample :
    SensorDB.add_reading "now" SqliteTable.empty "Pump" 1 "C"
        (some "  2024-01-01  ") "ok"
      = (1, ⟨[(1, ⟨"Pump", 1, "C", "  2024-01-01  ", "ok"⟩)], 1⟩) ∧
    pyStrip "  2024-01-01  " ≠ "  2024-01-01  " := by
  constructor
  · decide
  · decide

/-- C7, amended: `sensor_name`, `unit`, `status` (and `customer_name`,
`product`, `status` for orders) are stored trimmed by both add and update;
the date field (`timestamp`/`order_date`) is stored trimmed by update but
verbatim by add.  In particular storing `"  Pump-A  "` as `sensor_name`
yields `"Pump-A"` on a subsequent `get_reading`. -/
theorem c7_trim_normalization
    (db1 : SqliteTable SensorDB.SensorReading) (db2 : SqliteTable OrderDB.OrderRow)
    (now today n u t s c p d s2 : String) (v : ℚ) (q : Int) (pr : ℚ) (i : Nat)
    (hb1 : db1.seqBound) (hb2 : db2.seqBound)
    (hm1 : db1.memId i = true) (hm2 : db2.memId i = true)
    (hq : 0 < q) (hp : 0 ≤ pr) :
    SensorDB.get_reading (SensorDB.add_reading now db1 n v u (some t) s).2
        (db1.seq + 1)
      = some ⟨pyStrip n, v, pyStrip u, t, pyStrip s⟩ ∧
    SensorDB.get_reading (SensorDB.update_reading db1 i n v u t s).2 i
      = some ⟨pyStrip n, v, pyStrip u, pyStrip t, pyStrip s⟩ ∧
    OrderDB.get_order (OrderDB.add_order today db2 c p q pr (some d) s2).2
        (db2.seq + 1)
      = some ⟨pyStrip c, pyStrip p, q, pr, d, pyStrip s2⟩ ∧
    OrderDB.get_order (OrderDB.update_order db2 i c p q pr d s2).2 i
      = some ⟨pyStrip c, pyStrip p, q, pr, pyStrip d, pyStrip s2⟩ ∧
    (SensorDB.get_reading
        (SensorDB.add_reading now db1 "  Pump-A  " v u (some t) s).2
        (db1.seq + 1)).map (fun r => r.sensor_name)
      = some "Pump-A" := by
  have hck : ∀ cn pp od st, OrderDB.checksOk ⟨cn, pp, q, pr, od, st⟩ = true := by
    intro cn pp od st
    simp [OrderDB.checksOk, hq, hp]
  refine ⟨?_, ?_, ?_, ?_, ?_⟩
  · exact SqliteTable.getById_insertRow_fresh db1 _ hb1
  · exact SqliteTable.getById_updateRow_self db1 i _ hm1
  · simp only [OrderDB.add_order, Option.getD_some, hck, if_true]
    exact SqliteTable.getById_insertRow_fresh db2 _ hb2
  · simp only [OrderDB.update_order, hck, hm2, if_true]
    exact SqliteTable.getById_updateRow_self db2 i _ hm2
  · rw [show SensorDB.get_reading
        (SensorDB.add_reading now db1 "  Pump-A  " v u (some t) s).2 (db1.seq + 1)
      = some ⟨pyStrip "  Pump-A  ", v, pyStrip u, t, pyStrip s⟩ from
        SqliteTable.getById_insertRow_fresh db1 _ hb1]
    simp [show pyStrip "  Pump-A  " = "Pump-A" by decide]

/-- Witness for `c7_trim_normalization` at a concrete input. -/
theorem c7_trim_normalization_witness :
    ((⟨[(1, ⟨"a", 1, "u", "t", "s"⟩)], 1⟩ :
        SqliteTable SensorDB.SensorReading).seqBound ∧
     (⟨[(1, ⟨"c", "p", 1, 1, "d", "s"⟩)], 1⟩ :
        SqliteTable OrderDB.OrderRow).seqBound ∧
     (0 : Int) < 3 ∧ (0 : ℚ) ≤ 4) ∧
    (SensorDB.get_reading
        (SensorDB.add_reading "N" ⟨[(1, ⟨"a", 1, "u", "t", "s"⟩)], 1⟩
          "  Pump-A  " 2 " C " (some " T ") " S ").2 2).map
        (fun r => r.sensor_name)
      = some "Pump-A" :=
  ⟨⟨by decide, by decide, by decide, by decide⟩,
   (c7_trim_normalization ⟨[(1, ⟨"a", 1, "u", "t", "s"⟩)], 1⟩
      ⟨[(1, ⟨"c", "p", 1, 1, "d", "s"⟩)], 1⟩ "N" "D" "n" " C " " T " " S "
      "cu" "pr" "od" "st" 2 3 4 1 (by decide) (by decide) (by decide) (by decide)
      (by decide) (by decide)).2.2.2.2⟩

/-- C9, counterexample: `add_reading` called without the `status` argument
succeeds — Python applies the default `status="Normal"` declared in the
method signature — and the record is persisted with the store-chosen
status `"Normal"`, contradicting the claim that a sensor-reading add
without a status must not succeed with a store-chosen default. -/
theorem c9_counterexample :
    SensorDB.add_reading_defaults "2024-01-01 00:00:00" SqliteTable.empty
        "Temp" 1 "C" none
      = (1, ⟨[(1, ⟨"Temp", 1, "C", "2024-01-01 00:00:00", "Normal"⟩)], 1⟩) := by
  decide

/-- C9, amended: at the add boundary `status` is defaulted to a fixed
literal for both entities — `"pending"` for orders and `"Normal"` for
sensor readings: an add that omits the status argument succeeds and the
stored record carries the respective literal. -/
theorem c9_status_defaults
    (db1 : SqliteTable SensorDB.SensorReading) (db2 : SqliteTable OrderDB.OrderRow)
    (now today n u c p : String) (v : ℚ) (t d : Option String)
    (q : Int) (pr : ℚ)
    (hb1 : db1.seqBound) (hb2 : db2.seqBound) (hq : 0 < q) (hp : 0 ≤ pr) :
    SensorDB.get_reading (SensorDB.add_reading_defaults now db1 n v u t).2
        (db1.seq + 1)
      = some ⟨pyStrip n, v, pyStrip u, t.getD now, "Normal"⟩ ∧
    OrderDB.get_order (OrderDB.add_order_defaults today db2 c p q pr d).2
        (db2.seq + 1)
      = some ⟨pyStrip c, pyStrip p, q, pr, d.getD today, "pending"⟩ := by
  have hck : ∀ cn pp od st, OrderDB.checksOk ⟨cn, pp, q, pr, od, st⟩ = true := by
    intro cn pp od st
    simp [OrderDB.checksOk, hq, hp]
  constructor
  · rw [show SensorDB.get_reading (SensorDB.add_reading_defaults now db1 n v u t).2
          (db1.seq + 1)
        = some ⟨pyStrip n, v, pyStrip u, t.getD now, pyStrip "Normal"⟩ from
          SqliteTable.getById_insertRow_fresh db1 _ hb1]
    rw [show pyStrip "Normal" = "Normal" by decide]
  · simp only [OrderDB.add_order_defaults, OrderDB.add_order, hck, if_true]
    rw [show OrderDB.get_order
          (db2.insertRow ⟨pyStrip c, pyStrip p, q, pr, d.getD today,
            pyStrip "pending"⟩).2 (db2.seq + 1)
        = some ⟨pyStrip c, pyStrip p, q, pr, d.getD today, pyStrip "pending"⟩ from
          SqliteTable.getById_insertRow_fresh db2 _ hb2]
    rw [show pyStrip "pending" = "pending" by decide]

/-- Witness for `c9_status_defaults` at a concrete input. -/
theorem c9_status_defaults_witness :
    ((SqliteTable.empty : SqliteTable SensorDB.SensorReading).seqBound ∧
     (SqliteTable.empty : SqliteTable OrderDB.OrderRow).seqBound ∧
     (0 : Int) < 2 ∧ (0 : ℚ) ≤ 3) ∧
    OrderDB.get_order
        (OrderDB.add_order_defaults "2024-02-02" SqliteTable.empty "Ada" "W" 2 3 none).2 1
      = some ⟨"Ada", "W", 2, 3, "2024-02-02", "pending"⟩ :=
  ⟨⟨by decide, by decide, by decide, by decide⟩,
   (c9_status_defaults SqliteTable.empty SqliteTable.empty "N" "2024-02-02" "n" "u"
      "Ada" "W" 1 none none 2 3 (by decide) (by decide) (by decide) (by decide)).2⟩

/-- C10 (confirmed): an explicitly supplied `timestamp` (sensor add) or
`order_date` (order add) is persisted verbatim — not trimmed and not
validated against any date format — and is returned unchanged by the
lookup of the new record; the strings here are universally quantified, so
any text, including a malformed date, is stored and returned as-is. -/
theorem c10_supplied_date_verbatim
    (db1 : SqliteTable SensorDB.SensorReading) (db2 : SqliteTable OrderDB.OrderRow)
    (now today n u st c p st2 s1 s2 : String) (v : ℚ) (q : Int) (pr : ℚ)
    (hb1 : db1.seqBound) (hb2 : db2.seqBound) (hq : 0 < q) (hp : 0 ≤ pr) :
    (SensorDB.get_reading (SensorDB.add_reading now db1 n v u (some s1) st).2
        (db1.seq + 1)).map (fun r => r.timestamp) = some s1 ∧
    (OrderDB.get_order (OrderDB.add_order today db2 c p q pr (some s2) st2).2
        (db2.seq + 1)).map (fun r => r.order_date) = some s2 := by
  have hck : ∀ cn pp od stx, OrderDB.checksOk ⟨cn, pp, q, pr, od, stx⟩ = true := by
    intro cn pp od stx
    simp [OrderDB.checksOk, hq, hp]
  constructor
  · rw [show SensorDB.get_reading (SensorDB.add_reading now db1 n v u (some s1) st).2
          (db1.seq + 1)
        = some ⟨pyStrip n, v, pyStrip u, s1, pyStrip st⟩ from
          SqliteTable.getById_insertRow_fresh db1 _ hb1]
    rfl
  · simp only [OrderDB.add_order, Option.getD_some, hck, if_true]
    rw [show OrderDB.get_order
          (db2.insertRow ⟨pyStrip c, pyStrip p, q, pr, s2, pyStrip st2⟩).2
          (db2.seq + 1)
        = some ⟨pyStrip c, pyStrip p, q, pr, s2, pyStrip st2⟩ from
          SqliteTable.getById_insertRow_fresh db2 _ hb2]
    rfl

/-- Witness for `c10_supplied_date_verbatim` at a concrete input:
the supplied "date" is arbitrary malformed text with surrounding
whitespace and is returned exactly as supplied. -/
theorem c10_supplied_date_verbatim_witness :
    ((SqliteTable.empty : SqliteTable SensorDB.SensorReading).seqBound ∧
     (SqliteTable.empty : SqliteTable OrderDB.OrderRow).seqBound ∧
     (0 : Int) < 2 ∧ (0 : ℚ) ≤ 3) ∧
    (SensorDB.get_reading
        (SensorDB.add_reading "now" SqliteTable.empty "n" 1 "u"
          (some "  not a date !! ") "ok").2 1).map (fun r => r.timestamp)
      = some "  not a date !! " :=
  ⟨⟨by decide, by decide, by decide, by decide⟩,
   (c10_supplied_date_verbatim SqliteTable.empty SqliteTable.empty "now" "today"
      "n" "u" "ok" "c" "p" "st" "  not a date !! " "x" 1 2 3
      (by decide) (by decide) (by decide) (by decide)).1⟩

/-- Run invariant for the sensor store: every id a run of calls assigns
exceeds the starting sequence counter, and the assigned ids are pairwise
strictly increasing in call order. -/
theorem sensor_runIds_invariant (ops : List SensorDB.Op) :
    ∀ db : SqliteTable SensorDB.SensorReading,
      (∀ x ∈ SensorDB.runIds db ops, db.seq < x) ∧
        (SensorDB.runIds db ops).Pairwise (· < ·) := by
  induction ops with
  | nil =>
    intro db
    simp [SensorDB.runIds]
  | cons op ops ih =>
    intro db
    cases op with
    | add now n v u t s =>
      have hrun : SensorDB.runIds db (SensorDB.Op.add now n v u t s :: ops)
          = (db.seq + 1) ::
              SensorDB.runIds (SensorDB.add_reading now db n v u t s).2 ops := rfl
      obtain ⟨ih1, ih2⟩ := ih (SensorDB.add_reading now db n v u t s).2
      rw [hrun]
      constructor
      · intro x hx
        rcases List.mem_cons.mp hx with h | h
        · omega
        · have hlt : db.seq + 1 < x := ih1 x h
          omega
      · rw [List.pairwise_cons]
        exact ⟨fun x hx => ih1 x hx, ih2⟩
    | update i n v u t s =>
      have hrun : SensorDB.runIds db (SensorDB.Op.update i n v u t s :: ops)
          = SensorDB.runIds (SensorDB.update_reading db i n v u t s).2 ops := rfl
      obtain ⟨ih1, ih2⟩ := ih (SensorDB.update_reading db i n v u t s).2
      rw [hrun]
      refine ⟨fun x hx => ?_, ih2⟩
      have hlt := ih1 x hx
      have hseq : (SensorDB.update_reading db i n v u t s).2.seq = db.seq :=
        SqliteTable.seq_updateRow db i _
      rwa [hseq] at hlt
    | delete i =>
      have hrun : SensorDB.runIds db (SensorDB.Op.delete i :: ops)
          = SensorDB.runIds (SensorDB.delete_reading db i).2 ops := rfl
      obtain ⟨ih1, ih2⟩ := ih (SensorDB.delete_reading db i).2
      rw [hrun]
      refine ⟨fun x hx => ?_, ih2⟩
      have hlt := ih1 x hx
      have hseq : (SensorDB.delete_reading db i).2.seq = db.seq :=
        SqliteTable.seq_deleteRow db i
      rwa [hseq] at hlt

/-- Run invariant for the order store, as for the sensor store; an add
whose constraint checks fail assigns no id and leaves the state unchanged. -/
theorem order_runIds_invariant (ops : List OrderDB.Op) :
    ∀ db : SqliteTable OrderDB.OrderRow,
      (∀ x ∈ OrderDB.runIds db ops, db.seq < x) ∧
        (OrderDB.runIds db ops).Pairwise (· < ·) := by
  induction ops with
  | nil =>
    intro db
    simp [OrderDB.runIds]
  | cons op ops ih =>
    intro db
    cases op with
    | add today c p q pr dd s =>
      by_cases hck : OrderDB.checksOk
          ⟨pyStrip c, pyStrip p, q, pr, dd.getD today, pyStrip s⟩ = true
      · have hrun : OrderDB.runIds db (OrderDB.Op.add today c p q pr dd s :: ops)
            = (db.seq + 1) ::
                OrderDB.runIds
                  (db.insertRow
                    ⟨pyStrip c, pyStrip p, q, pr, dd.getD today, pyStrip s⟩).2 ops := by
          simp [OrderDB.runIds, OrderDB.applyOp, OrderDB.add_order, hck,
            SqliteTable.fst_insertRow]
        obtain ⟨ih1, ih2⟩ := ih
          (db.insertRow ⟨pyStrip c, pyStrip p, q, pr, dd.getD today, pyStrip s⟩).2
        rw [hrun]
        constructor
        · intro x hx
          rcases List.mem_cons.mp hx with h | h
          · omega
          · have hlt : db.seq + 1 < x := ih1 x h
            omega
        · rw [List.pairwise_cons]
          exact ⟨fun x hx => ih1 x hx, ih2⟩
      · have hrun : OrderDB.runIds db (OrderDB.Op.add today c p q pr dd s :: ops)
            = OrderDB.runIds db ops := by
          simp [OrderDB.runIds, OrderDB.applyOp, OrderDB.add_order, hck]
        rw [hrun]
        exact ih db
    | update i c p q pr dd s =>
      have hrun : OrderDB.runIds db (OrderDB.Op.update i c p q pr dd s :: ops)
          = OrderDB.runIds (OrderDB.update_order db i c p q pr dd s).2 ops := rfl
      obtain ⟨ih1, ih2⟩ := ih (OrderDB.update_order db i c p q pr dd s).2
      rw [hrun]
      refine ⟨fun x hx => ?_, ih2⟩
      have hseq : (OrderDB.update_order db i c p q pr dd s).2.seq = db.seq := by
        by_cases hm : db.memId i = true
        · by_cases hck : OrderDB.checksOk
              ⟨pyStrip c, pyStrip p, q, pr, pyStrip dd, pyStrip s⟩ = true
          · simp [OrderDB.update_order, hm, hck, SqliteTable.seq_updateRow]
          · simp [OrderDB.update_order, hm, hck]
        · simp [OrderDB.update_order, Bool.of_not_eq_true hm]
      have hlt := ih1 x hx
      rwa [hseq] at hlt
    | delete i =>
      have hrun : OrderDB.runIds db (OrderDB.Op.delete i :: ops)
          = OrderDB.runIds (OrderDB.delete_order db i).2 ops := rfl
      obtain ⟨ih1, ih2⟩ := ih (OrderDB.delete_order db i).2
      rw [hrun]
      refine ⟨fun x hx => ?_, ih2⟩
      have hlt := ih1 x hx
      have hseq : (OrderDB.delete_order db i).2.seq = db.seq :=
        SqliteTable.seq_deleteRow db i
      rwa [hseq] at hlt

/-- C2 (confirmed): along any sequence of store calls starting from a
fresh table, prepending 0 to the list of ids assigned by the adds (in
call order) gives a pairwise strictly increasing list: every assigned id
is a positive integer and strictly greater than every id previously
assigned for that table, whatever updates and deletes occur in between —
in particular all assigned ids are distinct, so a deleted id (necessarily
assigned earlier) is never assigned again. -/
theorem c2_monotonic_ids :
    (∀ ops : List SensorDB.Op,
      (0 :: SensorDB.runIds SqliteTable.empty ops).Pairwise (· < ·)) ∧
    (∀ ops : List OrderDB.Op,
      (0 :: OrderDB.runIds SqliteTable.empty ops).Pairwise (· < ·)) := by
  constructor
  · intro ops
    obtain ⟨h1, h2⟩ := sensor_runIds_invariant ops SqliteTable.empty
    rw [List.pairwise_cons]
    exact ⟨fun x hx => h1 x hx, h2⟩
  · intro ops
    obtain ⟨h1, h2⟩ := order_runIds_invariant ops SqliteTable.empty
    rw [List.pairwise_cons]
    exact ⟨fun x hx => h1 x hx, h2⟩

/-- Reading back an escaped quoted field recovers the original field:
`parseQuoted` undoes `escQ`, stops at the closing quote and leaves the
rest (which must not begin with another quote character) untouched. -/
theorem csv_parseQuoted_escQ (f : List Char) :
    ∀ (acc rest : List Char), rest.head? ≠ some Csv.quoteChar →
      Csv.parseQuoted (Csv.escQ f ++ Csv.quoteChar :: rest) acc
        = (acc.reverse ++ f, rest) := by
  induction f with
  | nil =>
    intro acc rest hr
    cases rest with
    | nil => simp [Csv.escQ, Csv.parseQuoted]
    | cons c2 r2 =>
      have hc2 : ¬ (c2 = Csv.quoteChar) := by
        intro h
        exact hr (by simp [h])
      simp [Csv.escQ, Csv.parseQuoted, hc2]
  | cons c f ih =>
    intro acc rest hr
    by_cases hc : c = Csv.quoteChar
    · subst hc
      have hstep : Csv.parseQuoted
            (Csv.escQ (Csv.quoteChar :: f) ++ Csv.quoteChar :: rest) acc
          = Csv.parseQuoted (Csv.escQ f ++ Csv.quoteChar :: rest)
              (Csv.quoteChar :: acc) := by
        simp [Csv.escQ, Csv.parseQuoted]
      rw [hstep, ih (Csv.quoteChar :: acc) rest hr]
      simp
    · have hesc : Csv.escQ (c :: f) = c :: Csv.escQ f := by
        simp [Csv.escQ, hc]
      have hstep : Csv.parseQuoted
            (Csv.escQ (c :: f) ++ Csv.quoteChar :: rest) acc
          = Csv.parseQuoted (Csv.escQ f ++ Csv.quoteChar :: rest) (c :: acc) := by
        rw [hesc, List.cons_append, Csv.parseQuoted.eq_def]
        simp [hc]
      rw [hstep, ih (c :: acc) rest hr]
      simp

/-- Reading an unquoted field containing no delimiter and no carriage
return consumes exactly that field and stops at the separator. -/
theorem csv_parseUF_clean (f : List Char) :
    ∀ (acc rest : List Char),
      (∀ c ∈ f, c ≠ ',' ∧ c ≠ Char.ofNat 13) →
      (∀ c, rest.head? = some c → c = ',' ∨ c = Char.ofNat 13) →
      Csv.parseUF (f ++ rest) acc = (acc.reverse ++ f, rest) := by
  induction f with
  | nil =>
    intro acc rest _ hr
    cases rest with
    | nil => simp [Csv.parseUF]
    | cons c2 r2 =>
      have hc2 : (c2 = ',' || c2 = Char.ofNat 13) = true := by
        rcases hr c2 (by simp) with h | h <;> simp [h]
      simp [Csv.parseUF, hc2]
  | cons c f ih =>
    intro acc rest hf hr
    have hc := hf c (by simp)
    have hcond : (c = ',' || c = Char.ofNat 13) = false := by
      simp [hc.1, hc.2]
    have hstep : Csv.parseUF ((c :: f) ++ rest) acc
        = Csv.parseUF (f ++ rest) (c :: acc) := by
      simp [Csv.parseUF, hcond]
    rw [hstep, ih (c :: acc) rest (fun x hx => hf x (by simp [hx])) hr]
    simp

/-- Reading back one written field recovers it exactly: `parseField`
inverts `quoteField` whenever the remaining input begins with a field or
row separator (or is empty), as it always does in writer output. -/
theorem csv_parseField_quoteField (f rest : List Char)
    (hr : ∀ c, rest.head? = some c → c = ',' ∨ c = Char.ofNat 13) :
    Csv.parseField (Csv.quoteField f ++ rest) = (f, rest) := by
  have hrq : rest.head? ≠ some Csv.quoteChar := by
    intro h
    cases rest with
    | nil => simp at h
    | cons c r2 =>
      have := hr c (by simp)
      have hcq : c = Csv.quoteChar := by simpa using h
      rcases this with h1 | h1 <;> rw [hcq] at h1 <;> revert h1 <;> decide
  by_cases hq : Csv.needsQuote f = true
  · have hqf : Csv.quoteField f ++ rest
        = Csv.quoteChar :: (Csv.escQ f ++ Csv.quoteChar :: rest) := by
      simp [Csv.quoteField, hq]
    rw [hqf, Csv.parseField.eq_def]
    simp only [if_pos rfl]
    rw [csv_parseQuoted_escQ f [] rest hrq]
    simp
  · have hclean : ∀ c ∈ f, c ≠ ',' ∧ c ≠ Char.ofNat 13 ∧ c ≠ Csv.quoteChar := by
      intro c hc
      have := List.any_eq_false.mp (Bool.not_eq_true _ ▸ hq : Csv.needsQuote f = false) c hc
      simp only [Bool.or_eq_true, decide_eq_true_eq, not_or] at this
      tauto
    have hqf : Csv.quoteField f = f := by
      simp [Csv.quoteField, hq]
    rw [hqf]
    cases f with
    | nil =>
      cases rest with
      | nil => simp [Csv.parseField]
      | cons c r2 =>
        have hcs := hr c (by simp)
        have hcq : ¬ (c = Csv.quoteChar) := by
          rcases hcs with h1 | h1 <;> rw [h1] <;> decide
        rw [List.nil_append, Csv.parseField.eq_def]
        simp only [if_neg hcq]
        have := csv_parseUF_clean [] [] (c :: r2) (by intro x hx; simp at hx) hr
        simpa using this
    | cons a f2 =>
      have ha := hclean a (by simp)
      rw [List.cons_append, Csv.parseField.eq_def]
      simp only [if_neg ha.2.2]
      have := csv_parseUF_clean (a :: f2) [] rest
        (fun x hx => ⟨(hclean x hx).1, (hclean x hx).2.1⟩) hr
      simpa using this

/-- A written row is at least one character per field beyond the first. -/
theorem csv_length_writeRow (r : List (List Char)) :
    r.length ≤ (Csv.writeRow r).length + 1 := by
  induction r with
  | nil => simp [Csv.writeRow]
  | cons f fs ih =>
    cases fs with
    | nil => simp [Csv.writeRow]
    | cons f2 fs2 =>
      have hw : Csv.writeRow (f :: f2 :: fs2)
          = Csv.quoteField f ++ ',' :: Csv.writeRow (f2 :: fs2) := rfl
      rw [hw]
      simp only [List.length_append, List.length_cons] at ih ⊢
      omega

/-- Reading back one written row (terminated by CRLF) recovers its fields
exactly, provided the fuel is at least the number of fields. -/
theorem csv_parseRowF_writeRow (r : List (List Char)) :
    ∀ (fuel : Nat) (rest : List Char), r ≠ [] → r.length ≤ fuel →
      Csv.parseRowF fuel
          (Csv.writeRow r ++ Char.ofNat 13 :: Char.ofNat 10 :: rest)
        = (r, rest) := by
  induction r with
  | nil =>
    intro fuel rest h _
    exact absurd rfl h
  | cons f fs ih =>
    intro fuel rest _ hlen
    have hfuel : 1 ≤ fuel := by
      have hl := hlen
      simp only [List.length_cons] at hl
      omega
    obtain ⟨fu, rfl⟩ : ∃ fu, fuel = fu + 1 := ⟨fuel - 1, by omega⟩
    cases fs with
    | nil =>
      have hw : Csv.writeRow [f] = Csv.quoteField f := rfl
      rw [hw]
      have hpf := csv_parseField_quoteField f
        (Char.ofNat 13 :: Char.ofNat 10 :: rest)
        (by
          intro c hc
          simp only [List.head?_cons, Option.some.injEq] at hc
          subst hc
          right
          rfl)
      rw [Csv.parseRowF.eq_def]
      simp [hpf, show ¬ ((Char.ofNat 13 : Char) = ',') by decide]
    | cons f2 fs2 =>
      have hw : Csv.writeRow (f :: f2 :: fs2)
          = Csv.quoteField f ++ ',' :: Csv.writeRow (f2 :: fs2) := rfl
      rw [hw, List.append_assoc, List.cons_append]
      have hpf := csv_parseField_quoteField f
        (',' :: (Csv.writeRow (f2 :: fs2) ++ Char.ofNat 13 :: Char.ofNat 10 :: rest))
        (by
          intro c hc
          simp only [List.head?_cons, Option.some.injEq] at hc
          subst hc
          left
          rfl)
      have hih := ih fu rest (by simp) (by
        simp only [List.length_cons] at hlen ⊢
        omega)
      rw [Csv.parseRowF.eq_def]
      simp [hpf, hih]

/-- Reading back a whole written file recovers every row, provided each
row has at least one field and the fuel is at least the file length. -/
theorem csv_parseRecsF_file (rows : List (List (List Char))) :
    ∀ fuel : Nat, (∀ r ∈ rows, r ≠ []) → (Csv.file rows).length ≤ fuel →
      Csv.parseRecsF fuel (Csv.file rows) = rows := by
  induction rows with
  | nil =>
    intro fuel _ _
    cases fuel with
    | zero => rfl
    | succ fu => rfl
  | cons r rs ih =>
    intro fuel hne hlen
    have hfile : Csv.file (r :: rs)
        = Csv.writeRow r ++ Char.ofNat 13 :: Char.ofNat 10 :: Csv.file rs := rfl
    have hlen2 : (Csv.file (r :: rs)).length
        = (Csv.writeRow r).length + 2 + (Csv.file rs).length := by
      rw [hfile]
      simp only [List.length_append, List.length_cons]
      omega
    have hwr : r.length ≤ (Csv.writeRow r).length + 1 := csv_length_writeRow r
    obtain ⟨fu, rfl⟩ : ∃ fu, fuel = fu + 1 := ⟨fuel - 1, by omega⟩
    obtain ⟨x, xs, hx⟩ : ∃ x xs,
        Csv.writeRow r ++ Char.ofNat 13 :: Char.ofNat 10 :: Csv.file rs
          = x :: xs := by
      cases h : Csv.writeRow r ++ Char.ofNat 13 :: Char.ofNat 10 :: Csv.file rs with
      | nil => simp at h
      | cons x xs => exact ⟨x, xs, rfl⟩
    have hstep : Csv.parseRecsF (fu + 1) (x :: xs)
        = (Csv.parseRowF (fu + 1) (x :: xs)).1
            :: Csv.parseRecsF fu (Csv.parseRowF (fu + 1) (x :: xs)).2 := rfl
    rw [hfile, hx, hstep, ← hx]
    rw [csv_parseRowF_writeRow r (fu + 1) (Csv.file rs) (hne r (by simp)) (by omega)]
    have hihyp := ih fu (fun a ha => hne a (by simp [ha])) (by omega)
    simpa using hihyp

/-- Reading back a written file with the default fuel recovers its rows. -/
theorem csv_parse_file (rows : List (List (List Char)))
    (hne : ∀ r ∈ rows, r ≠ []) :
    Csv.parse (Csv.file rows) = rows :=
  csv_parseRecsF_file rows _ hne (Nat.le_succ _)

/-- C6 (confirmed): for every non-empty (well-formed) table,
`export_to_csv` succeeds and writes a header row of the schema's field
names in table-declaration order (`id` included) followed by one data row
per record; parsing the produced CSV text yields exactly the header
followed by the rendered rows of `getAll()` in the same order, and the
records of `getAll()` are in strictly ascending id order. -/
theorem c6_export_roundtrip
    (db1 : SqliteTable SensorDB.SensorReading) (db2 : SqliteTable OrderDB.OrderRow)
    (h1 : db1.WF) (h2 : db2.WF)
    (ne1 : SensorDB.get_all_readings db1 ≠ [])
    (ne2 : OrderDB.get_all_orders db2 ≠ []) :
    SensorDB.export_to_csv db1 = Except.ok (SensorDB.exportText db1) ∧
    Csv.parse (SensorDB.exportText db1)
      = SensorDB.csvHeader :: (SensorDB.get_all_readings db1).map SensorDB.csvRow ∧
    ((SensorDB.get_all_readings db1).map Prod.fst).Pairwise (· < ·) ∧
    OrderDB.export_to_csv db2 = Except.ok (OrderDB.exportText db2) ∧
    Csv.parse (OrderDB.exportText db2)
      = OrderDB.csvHeader :: (OrderDB.get_all_orders db2).map OrderDB.csvRow ∧
    ((OrderDB.get_all_orders db2).map Prod.fst).Pairwise (· < ·) := by
  have hb1 : (SensorDB.get_all_readings db1).isEmpty = false := by
    cases hl : SensorDB.get_all_readings db1 with
    | nil => exact absurd hl ne1
    | cons a l => rfl
  have hb2 : (OrderDB.get_all_orders db2).isEmpty = false := by
    cases hl : OrderDB.get_all_orders db2 with
    | nil => exact absurd hl ne2
    | cons a l => rfl
  refine ⟨?_, ?_, ?_, ?_, ?_, ?_⟩
  · simp [SensorDB.export_to_csv, hb1]
  · apply csv_parse_file
    intro r hr
    rcases List.mem_cons.mp hr with h | h
    · subst h
      simp [SensorDB.csvHeader]
    · obtain ⟨p, hp, rfl⟩ := List.mem_map.mp h
      simp [SensorDB.csvRow]
  · exact (h1.1).map Prod.fst (fun a b hab => hab)
  · simp [OrderDB.export_to_csv, hb2]
  · apply csv_parse_file
    intro r hr
    rcases List.mem_cons.mp hr with h | h
    · subst h
      simp [OrderDB.csvHeader]
    · obtain ⟨p, hp, rfl⟩ := List.mem_map.mp h
      simp [OrderDB.csvRow]
  · exact (h2.1).map Prod.fst (fun a b hab => hab)

/-- Witness for `c6_export_roundtrip` at concrete one-record tables. -/
theorem c6_export_roundtrip_witness :
    ((⟨[(1, ⟨"a", 1, "u", "t", "s"⟩)], 1⟩ :
        SqliteTable SensorDB.SensorReading).WF ∧
     (⟨[(1, ⟨"c", "p", 2, 3, "d", "s"⟩)], 1⟩ :
        SqliteTable OrderDB.OrderRow).WF ∧
     SensorDB.get_all_readings ⟨[(1, ⟨"a", 1, "u", "t", "s"⟩)], 1⟩ ≠ [] ∧
     OrderDB.get_all_orders ⟨[(1, ⟨"c", "p", 2, 3, "d", "s"⟩)], 1⟩ ≠ []) ∧
    Csv.parse (SensorDB.exportText ⟨[(1, ⟨"a", 1, "u", "t", "s"⟩)], 1⟩)
      = SensorDB.csvHeader ::
          (SensorDB.get_all_readings ⟨[(1, ⟨"a", 1, "u", "t", "s"⟩)], 1⟩).map
            SensorDB.csvRow :=
  ⟨⟨by decide, by decide, by decide, by decide⟩,
   (c6_export_roundtrip ⟨[(1, ⟨"a", 1, "u", "t", "s"⟩)], 1⟩
      ⟨[(1, ⟨"c", "p", 2, 3, "d", "s"⟩)], 1⟩
      (by decide) (by decide) (by decide) (by decide)).2.1⟩
